import Mathlib

/-!
Shallow embedding of `src/plugin.py` (`RepeatSameContentHandler`), a
per-group repeat-content detector: it records recent messages per group,
prunes them by a time window and a count window, counts occurrences of the
incoming content, and decides whether to echo it back, gated by a
per-group cooldown on the last echoed content.

Timestamps are modelled as `Int` seconds (Python `datetime` subtraction
yields a signed duration in seconds).  Python dictionaries keyed by group
id are modelled as functions `String → Option _`, `none` meaning the key
is absent.  Python truthiness tests on strings (`if not group_id`) are
modelled as equality with `""`.
-/

namespace RepeatPlugin

/-- One element of `self.group_messages[group_id]`:
`{'time': timestamp, 'content': message_content}` (plugin.py lines 72-75). -/
structure Entry where
  time : Int
  content : String
deriving Repr, DecidableEq

/-- One value of `self.last_repeated_content[group_id]`:
`{'content': str, 'timestamp': datetime | None}` (plugin.py lines 68-69, 121-124). -/
structure LastRepeat where
  content : String
  timestamp : Option Int
deriving Repr, DecidableEq

/-- The fields of the incoming `MaiMessages` object that `execute` reads. -/
structure MaiMessages where
  is_group_message : Bool
  stream_id : String
  plain_text : String
deriving Repr, DecidableEq

/-- The observable output of a triggered repeat:
`await self.send_text(group_id, message_content)` (plugin.py line 118). -/
structure Echo where
  group_id : String
  text : String
deriving Repr, DecidableEq

/-- The handler's mutable state: `self.group_messages` and
`self.last_repeated_content` (plugin.py lines 28-30). -/
structure HandlerState where
  group_messages : String → Option (List Entry)
  last_repeated_content : String → Option LastRepeat

/-- Fresh handler state: both dictionaries empty (plugin.py `__init__`). -/
def initState : HandlerState := ⟨fun _ => none, fun _ => none⟩

/-- The five configuration values fetched by `get_config`
(plugin.py lines 49-53). -/
structure Config where
  time_window_minutes : Int
  message_window_size : Nat
  required_same_count : Nat
  max_message_length : Nat
  repeat_cooldown_minutes : Int
deriving Repr, DecidableEq

/-- The defaults from the config schema (plugin.py lines 49-53, 154-168). -/
def defaultConfig : Config :=
  { time_window_minutes := 5
    message_window_size := 10
    required_same_count := 3
    max_message_length := 100
    repeat_cooldown_minutes := 10 }

/-- Time-window prune (plugin.py lines 77-88): iterate over the reversed
list, keep entries with `(current_time - msg.time) ≤ window_seconds`,
`break` at the first older entry, then reverse back (`[::-1]`). -/
def pruneTime (now window_seconds : Int) (l : List Entry) : List Entry :=
  (l.reverse.takeWhile (fun e => decide (now - e.time ≤ window_seconds))).reverse

/-- Count-window truncation (plugin.py lines 90-92):
`if len(lst) > w: lst = lst[-w:]`.  Python slicing with `-0` is `lst[0:]`,
the whole list, so `w = 0` leaves the list untruncated. -/
def truncCount (w : Nat) (l : List Entry) : List Entry :=
  if l.length > w then (if w = 0 then l else l.drop (l.length - w)) else l

/-- The group's window after appending the incoming message and applying
both prunes (plugin.py lines 72-92).  A missing dictionary entry is first
initialised to `[]` (lines 64-65). -/
def windowAfter (cfg : Config) (st : HandlerState) (group_id content : String)
    (now : Int) : List Entry :=
  truncCount cfg.message_window_size
    (pruneTime now (cfg.time_window_minutes * 60)
      (((st.group_messages group_id).getD []) ++ [⟨now, content⟩]))

/-- The group's last-repeat record as `execute` reads it: a missing
dictionary entry is initialised to `{'content': '', 'timestamp': None}`
(plugin.py lines 68-69). -/
def lastFor (st : HandlerState) (group_id : String) : LastRepeat :=
  (st.last_repeated_content group_id).getD ⟨"", none⟩

/-- The trigger decision `can_repeat` (plugin.py lines 94-114): the count
of window entries equal to the incoming content must reach
`required_same_count`, and either the last repeated content differs, or
its timestamp is `None`, or strictly more than the cooldown has elapsed. -/
def canRepeat (cfg : Config) (st : HandlerState) (group_id content : String)
    (now : Int) : Bool :=
  let same_count := (windowAfter cfg st group_id content now).countP
    (fun e => e.content == content)
  if cfg.required_same_count ≤ same_count then
    let lr := lastFor st group_id
    if content ≠ lr.content then true
    else
      match lr.timestamp with
      | none => true
      | some t => decide (cfg.repeat_cooldown_minutes * 60 < now - t)
  else false

/-- State update and result for a message that passed all the input
filters (plugin.py lines 63-126): commit the pruned window, commit the
last-repeat record (the default one when not triggering, since lines 68-69
always insert the key), and return the echo action when triggering. -/
def ingestAccepted (cfg : Config) (st : HandlerState) (group_id content : String)
    (now : Int) : HandlerState × Option Echo :=
  let w := windowAfter cfg st group_id content now
  let cr := canRepeat cfg st group_id content now
  ({ group_messages := fun g => if g == group_id then some w else st.group_messages g
     last_repeated_content := fun g =>
       if g == group_id then
         some (if cr then ⟨content, some now⟩ else lastFor st group_id)
       else st.last_repeated_content g },
   if cr then some ⟨group_id, content⟩ else none)

/-- The handler's `execute` method (plugin.py lines 32-126), with the
send assumed to succeed.  The early returns (lines 36-58) are the no-op
pass-throughs: missing message, non-group message, empty `stream_id`,
empty `plain_text`, oversized `plain_text`. -/
def execute (cfg : Config) (st : HandlerState) (msg : Option MaiMessages)
    (now : Int) : HandlerState × Option Echo :=
  match msg with
  | none => (st, none)
  | some m =>
    if !m.is_group_message then (st, none)
    else if m.stream_id == "" then (st, none)
    else if m.plain_text == "" || decide (cfg.max_message_length < m.plain_text.length) then
      (st, none)
    else ingestAccepted cfg st m.stream_id m.plain_text now

/-- Outcome of one `execute` call when the downstream `send_text` may
raise: either a normal return, or an exception propagating out of
`execute` with the handler state as it stood at the raise point. -/
inductive ExecOutcome where
  | ok (st : HandlerState) (echo : Option Echo)
  | raised (st : HandlerState)

/-- The handler state carried by an outcome. -/
def ExecOutcome.state : ExecOutcome → HandlerState
  | .ok st _ => st
  | .raised st => st

/-- Whether the outcome is a propagating exception. -/
def ExecOutcome.isRaised : ExecOutcome → Bool
  | .ok _ _ => false
  | .raised _ => true

/-- The handler's `execute` method with the send outcome explicit
(plugin.py lines 116-124):
the window commit (lines 72-92) and the lazy initialisation of the
last-repeat key (lines 68-69) happen before `await self.send_text`; the
assignment of the new last-repeat record (lines 121-124) happens after it,
so when `send_text` raises, the exception propagates with the window
updated but the last-repeat record not updated. -/
def executeWithSend (cfg : Config) (st : HandlerState) (msg : Option MaiMessages)
    (now : Int) (sendOk : Bool) : ExecOutcome :=
  match msg with
  | none => .ok st none
  | some m =>
    if !m.is_group_message then .ok st none
    else if m.stream_id == "" then .ok st none
    else if m.plain_text == "" || decide (cfg.max_message_length < m.plain_text.length) then
      .ok st none
    else
      let group_id := m.stream_id
      let content := m.plain_text
      let w := windowAfter cfg st group_id content now
      let cr := canRepeat cfg st group_id content now
      let stMid : HandlerState :=
        { group_messages := fun g => if g == group_id then some w else st.group_messages g
          last_repeated_content := fun g =>
            if g == group_id then some (lastFor st group_id)
            else st.last_repeated_content g }
      if cr then
        if sendOk then
          .ok { stMid with last_repeated_content := fun g =>
                  if g == group_id then some ⟨content, some now⟩
                  else st.last_repeated_content g }
            (some ⟨group_id, content⟩)
        else .raised stMid
      else .ok stMid none

/-- Run a sequence of `execute` calls, threading the state. -/
def runIngest (cfg : Config) (st : HandlerState)
    (inputs : List (Option MaiMessages × Int)) : HandlerState :=
  inputs.foldl (fun s p => (execute cfg s p.1 p.2).1) st

/-- Run a sequence of `execute` calls, collecting the emitted actions. -/
def runTrace (cfg : Config) (st : HandlerState) :
    List (Option MaiMessages × Int) → HandlerState × List (Option Echo)
  | [] => (st, [])
  | (m, t) :: rest =>
    let r := execute cfg st m t
    let rr := runTrace cfg r.1 rest
    (rr.1, r.2 :: rr.2)

/-- A group message, as the host would deliver it. -/
def gmsg (g c : String) : Option MaiMessages := some ⟨true, g, c⟩

/-- Full-scan time prune, following the spec's words: keep every entry
with `now - entry.timestamp ≤ timeWindowMinutes * 60`. -/
def fullScanKeep (now window_seconds : Int) (l : List Entry) : List Entry :=
  l.filter (fun e => decide (now - e.time ≤ window_seconds))

/-! ### Helper lemmas -/

/-- When a message passes all input filters, `execute` runs the accepted
path. -/
theorem execute_accepted (cfg : Config) (st : HandlerState) (m : MaiMessages)
    (now : Int) (h1 : m.is_group_message = true) (h2 : m.stream_id ≠ "")
    (h3 : m.plain_text ≠ "") (h4 : m.plain_text.length ≤ cfg.max_message_length) :
    execute cfg st (some m) now = ingestAccepted cfg st m.stream_id m.plain_text now := by
  have h4n : ¬ (cfg.max_message_length < m.plain_text.length) := Nat.not_lt.mpr h4
  simp [execute, h1, h2, h3, h4n]

/-- The action component of the accepted path. -/
theorem ingestAccepted_snd (cfg : Config) (st : HandlerState) (g c : String)
    (now : Int) :
    (ingestAccepted cfg st g c now).2 =
      if canRepeat cfg st g c now then some ⟨g, c⟩ else none := rfl

/-- The window component of the accepted path. -/
theorem ingestAccepted_fst_gm (cfg : Config) (st : HandlerState) (g c : String)
    (now : Int) (g2 : String) :
    (ingestAccepted cfg st g c now).1.group_messages g2 =
      if g2 == g then some (windowAfter cfg st g c now)
      else st.group_messages g2 := rfl

/-- The last-repeat component of the accepted path. -/
theorem ingestAccepted_fst_lr (cfg : Config) (st : HandlerState) (g c : String)
    (now : Int) (g2 : String) :
    (ingestAccepted cfg st g c now).1.last_repeated_content g2 =
      if g2 == g then
        some (if canRepeat cfg st g c now then ⟨c, some now⟩ else lastFor st g)
      else st.last_repeated_content g2 := rfl

/-- The trigger decision reads only the ingested group's slice of the
state. -/
theorem canRepeat_congr (cfg : Config) (st st2 : HandlerState) (g c : String)
    (now : Int) (hgm : st.group_messages g = st2.group_messages g)
    (hlr : st.last_repeated_content g = st2.last_repeated_content g) :
    canRepeat cfg st g c now = canRepeat cfg st2 g c now := by
  unfold canRepeat windowAfter lastFor
  rw [hgm, hlr]

/-- Count-window truncation bounds the length when the size is positive. -/
theorem truncCount_length_le (w : Nat) (hw : 1 ≤ w) (l : List Entry) :
    (truncCount w l).length ≤ w := by
  unfold truncCount
  by_cases h : l.length > w
  · have hw0 : w ≠ 0 := by omega
    simp [h, hw0, List.length_drop]
    omega
  · simp [h]
    omega

/-- Every entry of the post-ingest window is inside the time window. -/
theorem mem_windowAfter_time (cfg : Config) (st : HandlerState) (g c : String)
    (now : Int) (e : Entry) (he : e ∈ windowAfter cfg st g c now) :
    now - e.time ≤ cfg.time_window_minutes * 60 := by
  unfold windowAfter truncCount at he
  have he2 : e ∈ pruneTime now (cfg.time_window_minutes * 60)
      (((st.group_messages g).getD []) ++ [⟨now, c⟩]) := by
    split at he
    · split at he
      · exact he
      · exact List.mem_of_mem_drop he
    · exact he
  unfold pruneTime at he2
  rw [List.mem_reverse] at he2
  have := List.mem_takeWhile_imp he2
  simpa using this

/-- On a list where the predicate only ever switches from true to false,
`takeWhile` and `filter` agree. -/
theorem takeWhile_eq_filter_of_pairwise {α : Type} {p : α → Bool} {l : List α}
    (h : l.Pairwise (fun a b => p b = true → p a = true)) :
    l.takeWhile p = l.filter p := by
  induction l with
  | nil => rfl
  | cons a t ih =>
    rcases List.pairwise_cons.mp h with ⟨ha, ht⟩
    by_cases hp : p a = true
    · simp [List.takeWhile_cons, List.filter_cons, hp, ih ht]
    · have hnil : t.filter p = [] :=
        List.filter_eq_nil_iff.mpr (fun b hb hpb => hp (ha b hb hpb))

      simp [List.takeWhile_cons, List.filter_cons, hp, hnil]

/-! ### Claims -/

/-- C6: every input rejected by the filters (missing message, non-group
message, empty group id, empty content, oversized content) yields no
action and leaves the whole handler state exactly unchanged; `execute` is
total, so no error is raised or propagated. -/
theorem C6_invalid_input_noop (cfg : Config) (st : HandlerState)
    (msg : Option MaiMessages) (now : Int)
    (h : msg = none ∨ ∃ m, msg = some m ∧
      (m.is_group_message = false ∨ m.stream_id = "" ∨ m.plain_text = "" ∨
       cfg.max_message_length < m.plain_text.length)) :
    execute cfg st msg now = (st, none) := by
  rcases h with h | ⟨m, rfl, hm⟩
  · subst h; rfl
  · rcases hm with h | h | h | h <;> simp [execute, h]

/-- Witness for C6 at a concrete rejected input. -/
theorem C6_invalid_input_noop_witness :
    execute defaultConfig initState none 0 = (initState, none) :=
  C6_invalid_input_noop defaultConfig initState none 0 (Or.inl rfl)

/-- C8: an `execute` call touches only the ingested group's state — every
other group's window and last-repeat record are unchanged — and the
emitted action depends only on the ingested group's own slice of the
state, so identical content in two different groups triggers
independently. -/
theorem C8_group_isolation (cfg : Config) (st st2 : HandlerState)
    (m : MaiMessages) (now : Int) (gOther : String)
    (hne : gOther ≠ m.stream_id)
    (hgm : st.group_messages m.stream_id = st2.group_messages m.stream_id)
    (hlr : st.last_repeated_content m.stream_id = st2.last_repeated_content m.stream_id) :
    ((execute cfg st (some m) now).1.group_messages gOther = st.group_messages gOther ∧
     (execute cfg st (some m) now).1.last_repeated_content gOther =
       st.last_repeated_content gOther) ∧
    (execute cfg st (some m) now).2 = (execute cfg st2 (some m) now).2 := by
  by_cases h1 : m.is_group_message
  · by_cases h2 : m.stream_id = ""
    · simp [execute, h1, h2]
    · by_cases h3 : m.plain_text = ""
      · simp [execute, h1, h2, h3]
      · by_cases h4 : cfg.max_message_length < m.plain_text.length
        · simp [execute, h1, h2, h3, h4]
        · have e1 := execute_accepted cfg st m now (by simpa using h1) h2 h3
            (Nat.not_lt.mp h4)
          have e2 := execute_accepted cfg st2 m now (by simpa using h1) h2 h3
            (Nat.not_lt.mp h4)
          rw [e1, e2]
          refine ⟨⟨?_, ?_⟩, ?_⟩
          · rw [ingestAccepted_fst_gm]
            simp [hne]
          · rw [ingestAccepted_fst_lr]
            simp [hne]
          · rw [ingestAccepted_snd, ingestAccepted_snd,
              canRepeat_congr cfg st st2 m.stream_id m.plain_text now hgm hlr]
  · simp [execute, h1]

/-- Witness for C8 at concrete states and inputs. -/
theorem C8_group_isolation_witness :
    (((execute defaultConfig initState (gmsg "g" "A") 0).1.group_messages "h" =
        initState.group_messages "h" ∧
      (execute defaultConfig initState (gmsg "g" "A") 0).1.last_repeated_content "h" =
        initState.last_repeated_content "h") ∧
     (execute defaultConfig initState (gmsg "g" "A") 0).2 =
       (execute defaultConfig initState (gmsg "g" "A") 0).2) :=
  C8_group_isolation defaultConfig initState initState ⟨true, "g", "A"⟩ 0 "h"
    (by decide) rfl rfl

/-- C9: when the stored timestamps are non-decreasing in list order, the
implemented backward-scan prune that stops at the first out-of-window
entry retains exactly the entries a full scan would keep. -/
theorem C9_prune_equals_full_scan (now window : Int) (l : List Entry)
    (hmono : l.Pairwise (fun a b => a.time ≤ b.time)) :
    pruneTime now window l = fullScanKeep now window l := by
  unfold pruneTime fullScanKeep
  have hrev : l.reverse.Pairwise
      (fun a b : Entry => decide (now - b.time ≤ window) = true →
        decide (now - a.time ≤ window) = true) := by
    rw [List.pairwise_reverse]
    refine hmono.imp ?_
    intro a b hab
    simp only [decide_eq_true_eq]
    omega
  rw [takeWhile_eq_filter_of_pairwise hrev, List.filter_reverse,
    List.reverse_reverse]

/-- Witness for C9 on a concrete monotone list. -/
theorem C9_prune_equals_full_scan_witness :
    pruneTime 400 300 [⟨0, "a"⟩, ⟨150, "b"⟩, ⟨390, "c"⟩] =
      fullScanKeep 400 300 [⟨0, "a"⟩, ⟨150, "b"⟩, ⟨390, "c"⟩] :=
  C9_prune_equals_full_scan 400 300 _ (by decide)

/-- One `execute` call keeps every group's window within the size bound,
provided the bound is positive and it held before the call. -/
theorem execute_window_bound (cfg : Config) (st : HandlerState)
    (msg : Option MaiMessages) (now : Int) (hw : 1 ≤ cfg.message_window_size)
    (hst : ∀ g, ((st.group_messages g).getD []).length ≤ cfg.message_window_size)
    (g : String) :
    (((execute cfg st msg now).1.group_messages g).getD []).length ≤
      cfg.message_window_size := by
  match msg with
  | none => exact hst g
  | some m =>
    by_cases h1 : m.is_group_message
    · by_cases h2 : m.stream_id = ""
      · simpa [execute, h1, h2] using hst g
      · by_cases h3 : m.plain_text = ""
        · simpa [execute, h1, h2, h3] using hst g
        · by_cases h4 : cfg.max_message_length < m.plain_text.length
          · simpa [execute, h1, h2, h3, h4] using hst g
          · rw [execute_accepted cfg st m now (by simpa using h1) h2 h3
              (Nat.not_lt.mp h4), ingestAccepted_fst_gm]
            by_cases hg : g == m.stream_id
            · simp only [hg, if_pos, Option.getD_some]
              exact truncCount_length_le _ hw _
            · simpa [hg] using hst g
    · simpa [execute, h1] using hst g

/-- Folding `execute` over any input sequence preserves the window size
bound for every group. -/
theorem runIngest_window_bound (cfg : Config)
    (inputs : List (Option MaiMessages × Int)) (hw : 1 ≤ cfg.message_window_size) :
    ∀ st : HandlerState,
      (∀ g, ((st.group_messages g).getD []).length ≤ cfg.message_window_size) →
      ∀ g, (((runIngest cfg st inputs).group_messages g).getD []).length ≤
        cfg.message_window_size := by
  induction inputs with
  | nil => intro st h g; exact h g
  | cons p rest ih =>
    intro st h g
    unfold runIngest at *
    rw [List.foldl_cons]
    exact ih _ (fun g2 => execute_window_bound cfg st p.1 p.2 hw h g2) g

/-- The configuration from the schema defaults, with the message count
window set to `0`. -/
def zeroWindowConfig : Config := { defaultConfig with message_window_size := 0 }

/-- C4 counterexample: with `message_window_size = 0` the Python slice
`lst[-0:]` is the whole list (plugin.py line 92), so after one accepted
ingest the window holds one entry, violating `length ≤ messageWindowSize`
as stated. -/
theorem C4_counterexample :
    ¬ ((((execute zeroWindowConfig initState (gmsg "g" "A") 0).1.group_messages
        "g").getD []).length ≤ zeroWindowConfig.message_window_size) := by decide

/-- C4 (amended): provided `messageWindowSize ≥ 1`, after any sequence of
ingest calls starting from the fresh handler state, every group's window
has length at most `messageWindowSize`. -/
theorem C4_window_bound (cfg : Config) (hw : 1 ≤ cfg.message_window_size)
    (inputs : List (Option MaiMessages × Int)) (g : String) :
    (((runIngest cfg initState inputs).group_messages g).getD []).length ≤
      cfg.message_window_size :=
  runIngest_window_bound cfg inputs hw initState (fun _ => by simp [initState]) g

/-- Witness for C4 on a concrete run. -/
theorem C4_window_bound_witness :
    1 ≤ defaultConfig.message_window_size ∧
    (((runIngest defaultConfig initState
        [(gmsg "g" "A", 0), (gmsg "g" "A", 1)]).group_messages "g").getD
        []).length ≤ defaultConfig.message_window_size :=
  ⟨by decide, C4_window_bound defaultConfig (by decide) _ "g"⟩

/-- C5 counterexample: an ingest into group `"h"` at time 1000 leaves the
stale entry of group `"g"` (stored at time 0) untouched, so after that
call group `"g"` holds an entry older than the time window relative to
that call's `now`. -/
theorem C5_counterexample :
    ¬ (∀ e ∈ ((runIngest defaultConfig initState
        [(gmsg "g" "A", 0), (gmsg "h" "B", 1000)]).group_messages "g").getD [],
        (1000 : Int) - e.time ≤ defaultConfig.time_window_minutes * 60) := by
  decide

/-- C5 (amended): after every ingest call that accepts its message, every
entry remaining in the ingested group's window is within the time window
of that call's `now`. -/
theorem C5_time_bound (cfg : Config) (st : HandlerState) (m : MaiMessages)
    (now : Int) (h1 : m.is_group_message = true) (h2 : m.stream_id ≠ "")
    (h3 : m.plain_text ≠ "") (h4 : m.plain_text.length ≤ cfg.max_message_length) :
    ∀ e ∈ ((execute cfg st (some m) now).1.group_messages m.stream_id).getD [],
      now - e.time ≤ cfg.time_window_minutes * 60 := by
  rw [execute_accepted cfg st m now h1 h2 h3 h4]
  intro e he
  rw [ingestAccepted_fst_gm] at he
  simp only [beq_self_eq_true, if_pos, Option.getD_some] at he
  exact mem_windowAfter_time cfg st m.stream_id m.plain_text now e he

/-- Witness for C5 at a concrete accepted ingest and a concrete retained
entry. -/
theorem C5_time_bound_witness :
    (7 : Int) - (Entry.mk 7 "A").time ≤ defaultConfig.time_window_minutes * 60 :=
  C5_time_bound defaultConfig initState ⟨true, "g", "A"⟩ 7 rfl (by decide)
    (by decide) (by decide) ⟨7, "A"⟩ (by decide)

/-- C10: with the default configuration, the trace C,C,C,D,D,D,C echoes
`"C"` at time 2, `"D"` at time 5, and `"C"` again at time 6 — the second
echo of `"C"` lands 4 seconds after the first, far inside the cooldown,
because `"D"`'s echo overwrote the single per-group last-repeat record. -/
theorem C10_double_echo_within_cooldown :
    (runTrace defaultConfig initState
      [(gmsg "g" "C", 0), (gmsg "g" "C", 1), (gmsg "g" "C", 2),
       (gmsg "g" "D", 3), (gmsg "g" "D", 4), (gmsg "g" "D", 5),
       (gmsg "g" "C", 6)]).2 =
      [none, none, some ⟨"g", "C"⟩, none, none, some ⟨"g", "D"⟩,
       some ⟨"g", "C"⟩] ∧
    (6 : Int) - 2 ≤ defaultConfig.repeat_cooldown_minutes * 60 := by
  exact ⟨by decide, by decide⟩

/-- The outcome of the triggering third `"C"` when the downstream send
raises, after two accepted `"C"` ingests. -/
def sendFailureOutcome : ExecOutcome :=
  executeWithSend defaultConfig
    (runIngest defaultConfig initState [(gmsg "g" "C", 0), (gmsg "g" "C", 1)])
    (gmsg "g" "C") 2 false

/-- C7: evaluating the code at the failing input — a triggering ingest
whose send raises — shows the exception propagating with the window
already committed (all three entries, including the new one) while the
last-repeat record still holds the pre-trigger default rather than
`("C", 2)`: the window is updated but `lastRepeat` is not. -/
theorem C7_send_failure_skips_last_repeat :
    sendFailureOutcome.isRaised = true ∧
    (sendFailureOutcome.state.group_messages "g").getD [] =
      [⟨0, "C"⟩, ⟨1, "C"⟩, ⟨2, "C"⟩] ∧
    sendFailureOutcome.state.last_repeated_content "g" = some ⟨"", none⟩ ∧
    sendFailureOutcome.state.last_repeated_content "g" ≠ some ⟨"C", some 2⟩ := by
  refine ⟨by decide, by decide, by decide, by decide⟩

/-- A `takeWhile` keeps the whole list when every element satisfies the
predicate. -/
theorem takeWhile_eq_self_of_all {α : Type} (p : α → Bool) (l : List α)
    (h : ∀ a ∈ l, p a = true) : l.takeWhile p = l := by
  induction l with
  | nil => rfl
  | cons a t ih =>
    rw [List.takeWhile_cons, if_pos (h a (List.mem_cons_self a t))]
    rw [ih (fun b hb => h b (List.mem_cons_of_mem a hb))]

/-- The time prune keeps the whole list when every entry is inside the
window. -/
theorem pruneTime_of_all (now window : Int) (l : List Entry)
    (h : ∀ e ∈ l, now - e.time ≤ window) : pruneTime now window l = l := by
  unfold pruneTime
  rw [takeWhile_eq_self_of_all _ _
    (fun e he => by simpa using h e (List.mem_reverse.mp he))]
  exact List.reverse_reverse l

/-- The count truncation keeps a list already within the bound. -/
theorem truncCount_of_le (w : Nat) (l : List Entry) (h : l.length ≤ w) :
    truncCount w l = l := by
  unfold truncCount
  rw [if_neg (by omega)]

/-- A handler state holding just one group's window and last-repeat
record, for concrete instantiations. -/
def stateWithLast (g : String) (w : List Entry) (lr : LastRepeat) : HandlerState :=
  ⟨fun x => if x = g then some w else none, fun x => if x = g then some lr else none⟩

/-- C2: with a recorded echo of the incoming content in the group, any
further ingest of that content within the cooldown emits nothing, however
high the repeat count; once strictly more than the cooldown has elapsed, a
qualifying repeat (count reaching the threshold) triggers again. -/
theorem C2_cooldown_suppression_then_retrigger (cfg : Config) (st : HandlerState)
    (m : MaiMessages) (now t0 : Int)
    (h1 : m.is_group_message = true) (h2 : m.stream_id ≠ "")
    (h3 : m.plain_text ≠ "") (h4 : m.plain_text.length ≤ cfg.max_message_length)
    (hlr : st.last_repeated_content m.stream_id = some ⟨m.plain_text, some t0⟩) :
    (now - t0 ≤ cfg.repeat_cooldown_minutes * 60 →
      (execute cfg st (some m) now).2 = none) ∧
    (cfg.repeat_cooldown_minutes * 60 < now - t0 →
      cfg.required_same_count ≤
        (windowAfter cfg st m.stream_id m.plain_text now).countP
          (fun x => x.content == m.plain_text) →
      (execute cfg st (some m) now).2 = some ⟨m.stream_id, m.plain_text⟩) := by
  constructor
  · intro hcd
    rw [execute_accepted cfg st m now h1 h2 h3 h4, ingestAccepted_snd]
    have hncd : ¬ (cfg.repeat_cooldown_minutes * 60 < now - t0) := not_lt.mpr hcd
    have hcr : canRepeat cfg st m.stream_id m.plain_text now = false := by
      unfold canRepeat lastFor
      rw [hlr]
      simp [hncd]
    simp [hcr]
  · intro hcd hcount
    rw [execute_accepted cfg st m now h1 h2 h3 h4, ingestAccepted_snd]
    have hcr : canRepeat cfg st m.stream_id m.plain_text now = true := by
      unfold canRepeat lastFor
      rw [hlr]
      simp [hcount, hcd]
    simp [hcr]

/-- Witness for C2: suppression 5 seconds after an echo of `"A"` at time
0, and a re-trigger once 700 seconds (beyond the 600-second cooldown)
have elapsed. -/
theorem C2_cooldown_suppression_then_retrigger_witness :
    (execute defaultConfig (stateWithLast "g" [⟨4, "A"⟩, ⟨4, "A"⟩] ⟨"A", some 0⟩)
      (gmsg "g" "A") 5).2 = none ∧
    (execute defaultConfig (stateWithLast "g" [⟨699, "A"⟩, ⟨699, "A"⟩] ⟨"A", some 0⟩)
      (gmsg "g" "A") 700).2 = some ⟨"g", "A"⟩ :=
  ⟨(C2_cooldown_suppression_then_retrigger defaultConfig
      (stateWithLast "g" [⟨4, "A"⟩, ⟨4, "A"⟩] ⟨"A", some 0⟩) ⟨true, "g", "A"⟩ 5 0
      rfl (by decide) (by decide) (by decide) (by decide)).1 (by decide),
   (C2_cooldown_suppression_then_retrigger defaultConfig
      (stateWithLast "g" [⟨699, "A"⟩, ⟨699, "A"⟩] ⟨"A", some 0⟩) ⟨true, "g", "A"⟩ 700 0
      rfl (by decide) (by decide) (by decide) (by decide)).2 (by decide) (by decide)⟩

/-- C3: with a recorded echo of a *different* content in the group, a
qualifying repeat of the incoming content (count reaching the threshold)
triggers immediately, whatever the recorded echo's timestamp. -/
theorem C3_content_change_bypass (cfg : Config) (st : HandlerState)
    (m : MaiMessages) (now : Int) (lr : LastRepeat)
    (h1 : m.is_group_message = true) (h2 : m.stream_id ≠ "")
    (h3 : m.plain_text ≠ "") (h4 : m.plain_text.length ≤ cfg.max_message_length)
    (hlr : st.last_repeated_content m.stream_id = some lr)
    (hne : lr.content ≠ m.plain_text)
    (hcount : cfg.required_same_count ≤
      (windowAfter cfg st m.stream_id m.plain_text now).countP
        (fun x => x.content == m.plain_text)) :
    (execute cfg st (some m) now).2 = some ⟨m.stream_id, m.plain_text⟩ := by
  rw [execute_accepted cfg st m now h1 h2 h3 h4, ingestAccepted_snd]
  have hne2 : m.plain_text ≠ lr.content := Ne.symm hne
  have hcr : canRepeat cfg st m.stream_id m.plain_text now = true := by
    unfold canRepeat lastFor
    rw [hlr]
    simp [hcount, hne2]
  simp [hcr]

/-- Witness for C3: after an echo of `"A"` recorded at time 0, a third
`"B"` at time 0 triggers at once. -/
theorem C3_content_change_bypass_witness :
    (execute defaultConfig (stateWithLast "g" [⟨0, "B"⟩, ⟨0, "B"⟩] ⟨"A", some 0⟩)
      (gmsg "g" "B") 0).2 = some ⟨"g", "B"⟩ :=
  C3_content_change_bypass defaultConfig
    (stateWithLast "g" [⟨0, "B"⟩, ⟨0, "B"⟩] ⟨"A", some 0⟩) ⟨true, "g", "B"⟩ 0
    ⟨"A", some 0⟩ rfl (by decide) (by decide) (by decide) (by decide) (by decide)
    (by decide)

/-- Whenever `execute` emits an echo, the count of window entries equal to
the incoming content reached the threshold and the cooldown condition
held. -/
theorem echo_emitted_only_if (cfg : Config) (st : HandlerState) (m : MaiMessages)
    (now : Int) (e : Echo) (h : (execute cfg st (some m) now).2 = some e) :
    cfg.required_same_count ≤
      (windowAfter cfg st m.stream_id m.plain_text now).countP
        (fun x => x.content == m.plain_text) ∧
    (m.plain_text ≠ (lastFor st m.stream_id).content ∨
     (lastFor st m.stream_id).timestamp = none ∨
     ∀ t, (lastFor st m.stream_id).timestamp = some t →
       cfg.repeat_cooldown_minutes * 60 < now - t) := by
  by_cases h1 : m.is_group_message
  · by_cases h2 : m.stream_id = ""
    · simp [execute, h1, h2] at h
    · by_cases h3 : m.plain_text = ""
      · simp [execute, h1, h2, h3] at h
      · by_cases h4 : cfg.max_message_length < m.plain_text.length
        · simp [execute, h1, h2, h3, h4] at h
        · rw [execute_accepted cfg st m now (by simpa using h1) h2 h3
            (Nat.not_lt.mp h4), ingestAccepted_snd] at h
          by_cases hcr : canRepeat cfg st m.stream_id m.plain_text now = true
          · simp only [canRepeat] at hcr
            by_cases hcount : cfg.required_same_count ≤
                (windowAfter cfg st m.stream_id m.plain_text now).countP
                  (fun x => x.content == m.plain_text)
            · refine ⟨hcount, ?_⟩
              rw [if_pos hcount] at hcr
              by_cases hne : m.plain_text ≠ (lastFor st m.stream_id).content
              · exact Or.inl hne
              · rw [if_neg hne] at hcr
                right
                cases hts : (lastFor st m.stream_id).timestamp with
                | none => exact Or.inl rfl
                | some t0 =>
                  rw [hts] at hcr
                  simp only [decide_eq_true_eq] at hcr
                  refine Or.inr (fun t ht => ?_)
                  cases ht
                  exact hcr
            · rw [if_neg hcount] at hcr
              exact absurd hcr (by simp)
          · simp [hcr] at h
  · simp [execute, h1] at h

/-- C1: with `requiredSameCount = 3` (and a window that can hold three
entries), three ingests of the same valid content into a fresh group at
increasing timestamps spanning at most the time window emit nothing on the
first two calls and an echo of that content on the third; and in general
an echo is emitted only if the window count of the incoming content
reaches the threshold and the cooldown condition holds. -/
theorem C1_trigger_on_third (cfg : Config) (st : HandlerState) (g c : String)
    (t1 t2 t3 : Int)
    (hreq : cfg.required_same_count = 3) (hwsz : 3 ≤ cfg.message_window_size)
    (hg : g ≠ "") (hc : c ≠ "") (hlen : c.length ≤ cfg.max_message_length)
    (h12 : t1 < t2) (h23 : t2 < t3)
    (hwin : t3 - t1 ≤ cfg.time_window_minutes * 60)
    (hfresh1 : st.group_messages g = none)
    (hfresh2 : st.last_repeated_content g = none) :
    ((execute cfg st (gmsg g c) t1).2 = none ∧
     (execute cfg (execute cfg st (gmsg g c) t1).1 (gmsg g c) t2).2 = none ∧
     (execute cfg (execute cfg (execute cfg st (gmsg g c) t1).1 (gmsg g c) t2).1
        (gmsg g c) t3).2 = some ⟨g, c⟩) ∧
    (∀ (cfga : Config) (sta : HandlerState) (ma : MaiMessages) (nowa : Int)
        (e : Echo), (execute cfga sta (some ma) nowa).2 = some e →
      cfga.required_same_count ≤
        (windowAfter cfga sta ma.stream_id ma.plain_text nowa).countP
          (fun x => x.content == ma.plain_text) ∧
      (ma.plain_text ≠ (lastFor sta ma.stream_id).content ∨
       (lastFor sta ma.stream_id).timestamp = none ∨
       ∀ t, (lastFor sta ma.stream_id).timestamp = some t →
         cfga.repeat_cooldown_minutes * 60 < nowa - t)) := by
  refine ⟨?_, fun cfga sta ma nowa e h => echo_emitted_only_if cfga sta ma nowa e h⟩
  have hW : 0 < cfg.time_window_minutes * 60 := by omega
  have e1 : execute cfg st (gmsg g c) t1 = ingestAccepted cfg st g c t1 :=
    execute_accepted cfg st ⟨true, g, c⟩ t1 rfl hg hc hlen
  have w1 : windowAfter cfg st g c t1 = [⟨t1, c⟩] := by
    unfold windowAfter
    rw [hfresh1]
    simp only [Option.getD_none, List.nil_append]
    rw [pruneTime_of_all _ _ _ (by
      intro x hx
      simp only [List.mem_singleton] at hx
      subst hx
      simp only []
      omega)]
    exact truncCount_of_le _ _ (by simp; omega)
  have cr1 : canRepeat cfg st g c t1 = false := by
    unfold canRepeat
    rw [w1]
    simp [hreq]
  have a1 : (execute cfg st (gmsg g c) t1).2 = none := by
    rw [e1, ingestAccepted_snd]
    simp [cr1]
  have s1 : (execute cfg st (gmsg g c) t1).1.group_messages g = some [⟨t1, c⟩] := by
    rw [e1, ingestAccepted_fst_gm]
    simp [w1]
  have s1l : (execute cfg st (gmsg g c) t1).1.last_repeated_content g =
      some ⟨"", none⟩ := by
    rw [e1, ingestAccepted_fst_lr]
    simp [cr1, lastFor, hfresh2]
  have e2 : execute cfg (execute cfg st (gmsg g c) t1).1 (gmsg g c) t2 =
      ingestAccepted cfg (execute cfg st (gmsg g c) t1).1 g c t2 :=
    execute_accepted cfg _ ⟨true, g, c⟩ t2 rfl hg hc hlen
  have w2 : windowAfter cfg (execute cfg st (gmsg g c) t1).1 g c t2 =
      [⟨t1, c⟩, ⟨t2, c⟩] := by
    unfold windowAfter
    rw [s1]
    simp only [Option.getD_some, List.singleton_append]
    rw [pruneTime_of_all _ _ _ (by
      intro x hx
      simp only [List.mem_cons, List.mem_singleton] at hx
      rcases hx with hx | hx | hx
      · subst hx; simp only []; omega
      · subst hx; simp only []; omega
      · cases hx)]
    exact truncCount_of_le _ _ (by simp; omega)
  have cr2 : canRepeat cfg (execute cfg st (gmsg g c) t1).1 g c t2 = false := by
    unfold canRepeat
    rw [w2]
    simp [hreq]
  have a2 : (execute cfg (execute cfg st (gmsg g c) t1).1 (gmsg g c) t2).2 = none := by
    rw [e2, ingestAccepted_snd]
    simp [cr2]
  have s2 : (execute cfg (execute cfg st (gmsg g c) t1).1 (gmsg g c) t2).1.group_messages g =
      some [⟨t1, c⟩, ⟨t2, c⟩] := by
    rw [e2, ingestAccepted_fst_gm]
    simp [w2]
  have s2l : (execute cfg (execute cfg st (gmsg g c) t1).1 (gmsg g c)
      t2).1.last_repeated_content g = some ⟨"", none⟩ := by
    rw [e2, ingestAccepted_fst_lr]
    simp [cr2, lastFor, s1l]
  have e3 : execute cfg (execute cfg (execute cfg st (gmsg g c) t1).1 (gmsg g c) t2).1
      (gmsg g c) t3 =
      ingestAccepted cfg (execute cfg (execute cfg st (gmsg g c) t1).1 (gmsg g c) t2).1
        g c t3 :=
    execute_accepted cfg _ ⟨true, g, c⟩ t3 rfl hg hc hlen
  have w3 : windowAfter cfg
      (execute cfg (execute cfg st (gmsg g c) t1).1 (gmsg g c) t2).1 g c t3 =
      [⟨t1, c⟩, ⟨t2, c⟩, ⟨t3, c⟩] := by
    unfold windowAfter
    rw [s2]
    simp only [Option.getD_some, List.cons_append, List.singleton_append,
      List.nil_append]
    rw [pruneTime_of_all _ _ _ (by
      intro x hx
      simp only [List.mem_cons, List.mem_singleton] at hx
      rcases hx with hx | hx | hx | hx
      · subst hx; simp only []; omega
      · subst hx; simp only []; omega
      · subst hx; simp only []; omega
      · cases hx)]
    exact truncCount_of_le _ _ (by simp; omega)
  have cr3 : canRepeat cfg
      (execute cfg (execute cfg st (gmsg g c) t1).1 (gmsg g c) t2).1 g c t3 = true := by
    unfold canRepeat lastFor
    rw [w3, s2l]
    simp [hreq, hc]
  have a3 : (execute cfg (execute cfg (execute cfg st (gmsg g c) t1).1 (gmsg g c) t2).1
      (gmsg g c) t3).2 = some ⟨g, c⟩ := by
    rw [e3, ingestAccepted_snd]
    simp [cr3]
  exact ⟨a1, a2, a3⟩

/-- Witness for C1 at the default configuration on a fresh group. -/
theorem C1_trigger_on_third_witness :
    (execute defaultConfig initState (gmsg "g" "A") 0).2 = none ∧
    (execute defaultConfig (execute defaultConfig initState (gmsg "g" "A") 0).1
      (gmsg "g" "A") 1).2 = none ∧
    (execute defaultConfig
      (execute defaultConfig (execute defaultConfig initState (gmsg "g" "A") 0).1
        (gmsg "g" "A") 1).1 (gmsg "g" "A") 2).2 = some ⟨"g", "A"⟩ :=
  (C1_trigger_on_third defaultConfig initState "g" "A" 0 1 2 rfl (by decide)
    (by decide) (by decide) (by decide) (by decide) (by decide) (by decide)
    rfl rfl).1

end RepeatPlugin
